import Mathlib

/-!
Verification of the Octa-GST bulk pull/export client.

This file gives a shallow embedding of the core logic of the repository
(`api_client.py`, `utils.py`, `main.py`, `excel_handler.py`, `config.py`)
and proves / refutes the frozen claims about it.  HTTP traffic, the clock
and the file system are abstracted as explicit oracles passed to the
embedded functions; everything else is translated branch-for-branch from
the Python source.
-/

namespace OctaGST

/-! ## Configuration constants (`config.py`) -/

/-- `config.API_RETRY_COUNT = 3`. -/
def API_RETRY_COUNT : Nat := 3

/-- `config.API_RETRY_DELAY = 2`. -/
def API_RETRY_DELAY : Nat := 2

/-- `config.PULL_RETRY_DELAY = 2`. -/
def PULL_RETRY_DELAY : Nat := 2

/-- `config.RETRY_EXPONENTIAL_BASE = 2`. -/
def RETRY_EXPONENTIAL_BASE : Nat := 2

/-- `config.RETRY_MAX_WAIT = 30`. -/
def RETRY_MAX_WAIT : Nat := 30

/-- `config.EXPORT_MAX_WAIT = 180`. -/
def EXPORT_MAX_WAIT : Nat := 180

/-- `config.EXPORT_CHECK_INTERVAL = 3`. -/
def EXPORT_CHECK_INTERVAL : Nat := 3

/-- `config.GST_REPORTS`, reduced to the fields the client logic reads:
the report-type key and its `enabled` flag. -/
def GST_REPORTS : List (String × Bool) :=
  [("GSTR-2A", true), ("GSTR-2B", false), ("IMS", false), ("IMS-RECO", false),
   ("ANNUAL-REPORT", false), ("GSTR-2B-RECO", false), ("ITC-CLAIMS", false),
   ("GSTR-1", false), ("GSTR-3B", false)]

/-- Dictionary lookup `GST_REPORTS.get(report_type)` on the enabled flag. -/
def reportEnabled (rt : String) : Option Bool :=
  (GST_REPORTS.lookup rt)

/-! ## Job status mapping (`api_client.check_job_status`, lines 277-287) -/

/-- The literal `status_mapping` dictionary of `check_job_status`:
`100→completed, 0→pending, 1→processing, 2→processing, -1→failed,
-2→cancelled, 99→expired`. -/
def status_mapping (code : Int) : Option String :=
  if code = 100 then some "completed"
  else if code = 0 then some "pending"
  else if code = 1 then some "processing"
  else if code = 2 then some "processing"
  else if code = -1 then some "failed"
  else if code = -2 then some "cancelled"
  else if code = 99 then some "expired"
  else none

/-- `data['status'] = status_mapping.get(job_status_code, 'unknown')`. -/
def canonicalStatus (code : Int) : String :=
  (status_mapping code).getD "unknown"

/-! ## Month ranges (`utils.generate_month_range`, lines 48-80) -/

/-- A period parsed by `datetime.strptime(p, '%Y-%m')`: only the year and
month components are used by `generate_month_range`. -/
@[ext]
structure Month where
  year : Nat
  month : Nat
deriving DecidableEq, Repr

/-- A period `strptime` accepts: the month field lies in `1..12`. -/
def Month.valid (p : Month) : Prop := 1 ≤ p.month ∧ p.month ≤ 12

/-- Linear month index; two valid periods compare (as `datetime`s) exactly
as their indices do. -/
def Month.idx (p : Month) : Nat := 12 * p.year + (p.month - 1)

/-- Inverse of `Month.idx` on valid periods. -/
def Month.ofIdx (n : Nat) : Month := ⟨n / 12, n % 12 + 1⟩

/-- `datetime` order restricted to year-month: lexicographic. -/
def monthLE (a b : Month) : Prop :=
  a.year < b.year ∨ (a.year = b.year ∧ a.month ≤ b.month)

instance (a b : Month) : Decidable (monthLE a b) := by
  unfold monthLE; exact inferInstance

/-- The month-increment step of the `while` loop: `month == 12` rolls over
to January of the next year, else `month + 1`. -/
def nextMonth (p : Month) : Month :=
  if p.month = 12 then ⟨p.year + 1, 1⟩ else ⟨p.year, p.month + 1⟩

/-- The `while current_date <= end_date` loop of `generate_month_range`,
made total with a fuel argument (the caller passes enough fuel to cover
the whole inclusive range). -/
def monthsLoop (e : Month) : Nat → Month → List Month
  | 0, _ => []
  | fuel + 1, cur =>
    if monthLE cur e then cur :: monthsLoop e fuel (nextMonth cur) else []

/-- `utils.generate_month_range` after parsing: swaps the bounds when
`start_date > end_date`, then collects every month from the lower to the
upper bound inclusive. -/
def generate_month_range (a b : Month) : List Month :=
  let p := if monthLE a b then (a, b) else (b, a)
  monthsLoop p.2 (p.2.idx + 1 - p.1.idx) p.1

/-! ## Transport layer (`api_client.pull_gst_report` / `export_gst_report`) -/

/-- Result of `response.json()` on a 200 reply: unparseable, parsed
without a `jobId` field, or parsed with one. -/
inductive JsonBody where
  | invalid (err : String)
  | parsed (jobId : Option String)
deriving DecidableEq, Repr

/-- One observable outcome of `self.session.post` / `get`: an HTTP
response (status, the two vendor error headers, body, raw text), a
`requests` timeout, a connection error, or another exception. -/
inductive HttpEvent where
  | resp (status : Nat) (errorCode errorMessage : Option String)
      (body : JsonBody) (text : String)
  | timeout
  | connError
  | exn (msg : String)
deriving DecidableEq, Repr

/-- The `(success, job_id, error_message)` tuple the client methods
return. -/
structure TriResult where
  success : Bool
  jobId : Option String
  errorMsg : Option String
deriving DecidableEq, Repr

/-- Occurrence of `pat` as a contiguous sub-list at any position. -/
def containsSubAux (pat : List Char) : List Char → Bool
  | [] => pat.isEmpty
  | c :: rest => pat.isPrefixOf (c :: rest) || containsSubAux pat rest

/-- Python's substring test `pat in s`: `pat` occurs contiguously in
`s`. -/
def containsSub (s pat : String) : Bool :=
  containsSubAux pat.data s.data

/-- Python `str.upper()` on one character, for the code points the data
uses (ASCII): `a`-`z` map down by 32, everything else is unchanged. -/
def pyUpperChar (c : Char) : Char :=
  if 97 ≤ c.toNat ∧ c.toNat ≤ 122 then Char.ofNat (c.toNat - 32) else c

/-- Python `str.upper()`. -/
def pyUpper (s : String) : String := ⟨s.data.map pyUpperChar⟩

/-- Python `str.lower()` on one character (ASCII). -/
def pyLowerChar (c : Char) : Char :=
  if 65 ≤ c.toNat ∧ c.toNat ≤ 90 then Char.ofNat (c.toNat + 32) else c

/-- Python `str.lower()`. -/
def pyLower (s : String) : String := ⟨s.data.map pyLowerChar⟩

/-- Python `str.strip()`: drop whitespace from both ends. -/
def pyStrip (s : String) : String :=
  ⟨((s.data.dropWhile Char.isWhitespace).reverse.dropWhile Char.isWhitespace).reverse⟩

/-- The `for attempt in range(API_RETRY_COUNT)` body of
`pull_gst_report` (lines 68-149).  `events n` is the transport outcome of
the `n`-th POST; `fuel` counts the iterations left including the current
one, so `fuel = 0` after pattern `fuel+1` means `attempt ==
API_RETRY_COUNT - 1` (the last allowed attempt).  Returns the result
tuple together with the number of POSTs issued. -/
def pullIter (events : Nat → HttpEvent) (gstin period : String) :
    Nat → Nat → TriResult × Nat
  | attempt, 0 => (⟨false, none, some "Max retries exceeded"⟩, attempt)
  | attempt, fuel + 1 =>
    let done := fun (r : TriResult) => (r, attempt + 1)
    match events attempt with
    | .resp status errorCode errorMessage body text =>
      if status = 200 then
        match body with
        | .invalid _ => done ⟨false, none, some "Invalid JSON response"⟩
        | .parsed none => done ⟨false, none, some "No job ID in response"⟩
        | .parsed (some j) => done ⟨true, some j, none⟩
      else if status = 400 then
        let ec := errorCode.getD "Unknown"
        let em := errorMessage.getD "Bad Request"
        if ec = "2000" then
          done ⟨false, none, some ("Not connected to GST System - Please complete OTP verification for " ++ gstin)⟩
        else if ec = "100" then
          done ⟨false, none, some ("Invalid period format: " ++ period)⟩
        else
          done ⟨false, none, some ("Error " ++ ec ++ ": " ++ em)⟩
      else if status = 401 then
        done ⟨false, none, some "Authentication failed - Check API credentials"⟩
      else if status = 403 then
        done ⟨false, none, some "Access denied - Check company permissions"⟩
      else if status = 429 then
        if fuel = 0 then done ⟨false, none, some "Rate limit exceeded"⟩
        else pullIter events gstin period (attempt + 1) fuel
      else if status = 500 then
        if fuel = 0 then done ⟨false, none, some "OCTA GST server error"⟩
        else pullIter events gstin period (attempt + 1) fuel
      else
        done ⟨false, none, some ("HTTP " ++ toString status ++ ": " ++ text.take 100)⟩
    | .timeout =>
      if fuel = 0 then done ⟨false, none, some "Request timeout"⟩
      else pullIter events gstin period (attempt + 1) fuel
    | .connError =>
      if fuel = 0 then done ⟨false, none, some "Connection error - Check internet"⟩
      else pullIter events gstin period (attempt + 1) fuel
    | .exn msg => done ⟨false, none, some ("Unexpected error: " ++ msg)⟩

/-- `OctaGSTClient.pull_gst_report`: report-type precondition checks, then
the retry loop.  The company id is sent only as a header, so it does not
influence the classification. -/
def pull_gst_report (reportType companyId gstin period : String)
    (events : Nat → HttpEvent) : TriResult × Nat :=
  match reportEnabled reportType with
  | none => (⟨false, none, some ("Unknown report type: " ++ reportType)⟩, 0)
  | some false =>
    (⟨false, none, some (reportType ++ " is not yet enabled. Waiting for API documentation.")⟩, 0)
  | some true => pullIter events gstin period 0 API_RETRY_COUNT

/-- The caller-observable part of a pull outcome apart from the message
text: success flag, job id and number of attempts. -/
def pullObs (r : TriResult × Nat) : Bool × Option String × Nat :=
  (r.1.success, r.1.jobId, r.2)

/-- `OctaGSTClient.export_gst_report` (lines 151-247): a single POST with
no retry loop.  Only `events 0` is ever consulted. -/
def export_gst_report (reportType companyId gstin startPeriod endPeriod : String)
    (reportFormat : Nat) (events : Nat → HttpEvent) : TriResult :=
  match reportEnabled reportType with
  | none => ⟨false, none, some ("Unknown report type: " ++ reportType)⟩
  | some false =>
    ⟨false, none, some (reportType ++ " is not yet enabled. Waiting for API documentation.")⟩
  | some true =>
    match events 0 with
    | .resp status errorCode errorMessage body _ =>
      if status = 200 then
        match body with
        | .invalid e => ⟨false, none, some ("Invalid JSON response: " ++ e)⟩
        | .parsed none => ⟨false, none, some "No job ID in response"⟩
        | .parsed (some j) => ⟨true, some j, none⟩
      else if status = 400 then
        ⟨false, none, some ("Error " ++ errorCode.getD "" ++ ": " ++ errorMessage.getD "Bad Request")⟩
      else if status = 401 then
        ⟨false, none, some "Authentication failed - Check API credentials"⟩
      else if status = 403 then
        ⟨false, none, some "Access denied - Check company permissions"⟩
      else
        ⟨false, none, some (errorMessage.getD ("HTTP " ++ toString status))⟩
    | .timeout => ⟨false, none, some "Request timeout"⟩
    | .connError => ⟨false, none, some "Connection error"⟩
    | .exn msg => ⟨false, none, some msg⟩

/-- The transport events `pull_gst_report` retries on: HTTP 429, HTTP 500
(exactly 500 - no other 5xx), a timeout, or a connection error. -/
def HttpEvent.isTransient : HttpEvent → Bool
  | .resp status _ _ _ _ => status == 429 || status == 500
  | .timeout => true
  | .connError => true
  | .exn _ => false

/-- The error message `pull_gst_report` reports when its retries are
exhausted on the given transient event. -/
def transientFailMsg : HttpEvent → Option String
  | .resp status _ _ _ _ =>
    if status = 429 then some "Rate limit exceeded"
    else if status = 500 then some "OCTA GST server error"
    else none
  | .timeout => some "Request timeout"
  | .connError => some "Connection error - Check internet"
  | .exn m => some ("Unexpected error: " ++ m)

/-! ## Smart retry driver (`utils.smart_retry_with_backoff`, lines 864-941) -/

/-- One entry of the list `smart_retry_with_backoff` returns. -/
structure RetryOutcome where
  retryStatus : String
  retryAttempts : Nat
  jobId : Option String
  finalError : Option String
  delays : List Nat
deriving DecidableEq, Repr

/-- The `while attempt <= max_attempts` loop for one failed operation.
`res n` is the submission outcome of attempt `n` (1-based); `fuel` is the
number of attempts still allowed including the current one, so `fuel = 0`
after pattern `fuel+1` means `attempt == max_attempts`.  `delays` records
every `time.sleep` issued, in order. -/
def smartRetryGo (res : Nat → TriResult) : Nat → Nat → List Nat → RetryOutcome
  | _, 0, delays => ⟨"NoAttempt", 0, none, none, delays⟩
  | attempt, fuel + 1, delays =>
    let r := res attempt
    if r.success then ⟨"Success", attempt, r.jobId, none, delays⟩
    else if fuel = 0 then ⟨"Failed", attempt, none, r.errorMsg, delays⟩
    else
      let wait := min (RETRY_EXPONENTIAL_BASE ^ attempt) RETRY_MAX_WAIT
      smartRetryGo res (attempt + 1) fuel (delays ++ [wait])

/-- `smart_retry_with_backoff` for a single failed operation:
`attempt = 1`, `max_attempts = 3`. -/
def smart_retry_one (res : Nat → TriResult) : RetryOutcome :=
  smartRetryGo res 1 3 []

/-! ## Export wait loop (`utils.process_export_batch`, lines 530-630) -/

/-- Terminal classification of the `while waited < EXPORT_MAX_WAIT` loop,
carrying the number of status polls performed. -/
inductive WaitOutcome where
  | completed (iters : Nat)
  | jobFailed (iters : Nat)
  | timedOut (iters : Nat)
deriving DecidableEq, Repr

/-- The poll loop body: sleep `interval`, add it to `waited`, fetch the
job status, lower-case it and branch.  `poll n` is the canonical status
string the `n`-th `check_job_status` call reports (1-based).  `fuel`
bounds the recursion; `exportWait` passes `maxWait + 1`, which with
`interval ≥ 1` is never exhausted before `waited` reaches `maxWait`. -/
def exportWaitGo (poll : Nat → String) (interval maxWait : Nat) :
    Nat → Nat → Nat → WaitOutcome
  | _, iter, 0 => .timedOut iter
  | waited, iter, fuel + 1 =>
    if waited < maxWait then
      let waited' := waited + interval
      let iter' := iter + 1
      let s := pyLower (poll iter')
      if s = "completed" ∨ s = "complete" ∨ s = "success" ∨ s = "successful" then
        .completed iter'
      else if s = "failed" ∨ s = "error" ∨ s = "cancelled" then
        .jobFailed iter'
      else
        exportWaitGo poll interval maxWait waited' iter' fuel
    else .timedOut iter

/-- The complete wait loop of `process_export_batch`, started at
`waited = 0`. -/
def exportWait (poll : Nat → String) (interval maxWait : Nat) : WaitOutcome :=
  exportWaitGo poll interval maxWait 0 0 (maxWait + 1)

/-- A status string the wait loop of `process_export_batch` recognizes as
terminal (after lower-casing). -/
def isExportTerminal (s : String) : Prop :=
  pyLower s = "completed" ∨ pyLower s = "complete" ∨ pyLower s = "success" ∨
  pyLower s = "successful" ∨ pyLower s = "failed" ∨ pyLower s = "error" ∨
  pyLower s = "cancelled"

instance (s : String) : Decidable (isExportTerminal s) := by
  unfold isExportTerminal; exact inferInstance

/-- Return triple of `download_export`. -/
structure DownloadResult where
  success : Bool
  filepath : Option String
  info : Option String
deriving DecidableEq, Repr

/-- The fields `process_export_batch` fills into its result dict that the
claims are about. -/
structure ExportBatchResult where
  jobId : String
  status : String
  error : Option String
  filename : String
deriving DecidableEq, Repr

/-- `utils.process_export_batch` for one batch, over the three oracles it
consumes: the export-submission outcome, the status poller, and the
download outcome invoked on completion. -/
def process_export_batch (submit : TriResult) (poll : Nat → String)
    (pollMessage : Option String) (download : DownloadResult) :
    ExportBatchResult × Bool :=
  if ¬ submit.success then
    (⟨"", "Failed to Create Job", submit.errorMsg, ""⟩, false)
  else
    let jid := (submit.jobId.getD "")
    match exportWait poll EXPORT_CHECK_INTERVAL EXPORT_MAX_WAIT with
    | .completed _ =>
      if download.success then
        (⟨jid, "Success", none, (download.info.getD "")⟩, true)
      else
        (⟨jid, "Download Failed", download.info, ""⟩, false)
    | .jobFailed _ =>
      (⟨jid, "Job Failed", some (pollMessage.getD "Job failed"), ""⟩, false)
    | .timedOut _ =>
      (⟨jid, "Timeout",
        some ("Job did not complete within " ++ toString EXPORT_MAX_WAIT ++ " seconds"), ""⟩, false)

/-! ## Artifact download (`api_client.download_export`, lines 306-391) -/

/-- The job-status dict `download_export` re-queries: raw `jobStatus`
code, derived `status` string, optional download `url`. -/
structure JobStatusSnap where
  jobStatus : Option Int
  status : String
  url : Option String
deriving DecidableEq, Repr

/-- `OctaGSTClient.download_export`.  Oracles: the re-queried status
snapshot, the HTTP status of the GET on the download URL, the filename
recovered from `content-disposition` (if any), the trailing URL path
segment, and `written`, the state of the file after the streaming write
(`none` = the file does not exist, `some n` = it exists with size `n`). -/
def download_export (snap : JobStatusSnap) (httpStatus : Nat)
    (contentDispName : Option String) (urlTailSegment : String)
    (jobId timestamp : String) (written : Option Nat) : DownloadResult :=
  if snap.jobStatus = some 100 ∨ snap.status = "completed" then
    match snap.url with
    | none => ⟨false, none, some "No download URL in completed job"⟩
    | some _ =>
      if httpStatus ≠ 200 then
        ⟨false, none, some ("Download failed: HTTP " ++ toString httpStatus)⟩
      else
        let fromUrl : Option String :=
          if urlTailSegment ≠ "" ∧ containsSub urlTailSegment ".xlsx" then
            some urlTailSegment
          else none
        let filename :=
          match contentDispName with
          | some f => f
          | none =>
            match fromUrl with
            | some t => t
            | none => "GSTR2A_Export_" ++ jobId ++ "_" ++ timestamp ++ ".xlsx"
        match written with
        | some n =>
          if 0 < n then ⟨true, some filename, some filename⟩
          else ⟨false, none, some "File creation failed or file is empty"⟩
        | none => ⟨false, none, some "File creation failed or file is empty"⟩
  else
    ⟨false, none,
      some ("Job not ready. Status: " ++
        (match snap.jobStatus with
         | some c => toString c
         | none => snap.status))⟩

/-! ## Batch orchestrator (`main.run_pull_operation`, lines 83-298) -/

/-- One input row, after `excel_handler.read_companies`. -/
structure Company where
  companyId : String
  companyName : String
  gstin : String
deriving DecidableEq, Repr

/-- One record of the `results` list (the `Timestamp` field, real wall
time, is not modelled). -/
structure ResultRec where
  reportType : String
  companyId : String
  companyName : String
  gstin : String
  returnPeriod : String
  jobId : String
  status : String
  errorMessage : String
deriving DecidableEq, Repr

/-- One entry of the `failed_operations` retry queue (pull flavour). -/
structure FailedOp where
  reportType : String
  companyId : String
  companyName : String
  gstin : String
  returnPeriod : String
  error : Option String
deriving DecidableEq, Repr

/-- A record of one `api_client.pull_gst_report` invocation. -/
structure CallRec where
  reportType : String
  companyId : String
  gstin : String
  returnPeriod : String
deriving DecidableEq, Repr

/-- The network as seen by the orchestrator: each pull request is answered
deterministically from its arguments. -/
def PullApi : Type := String → String → String → String → TriResult

/-- The mutable state of the per-company loops of `run_pull_operation`. -/
structure Accum where
  results : List ResultRec
  failedOps : List FailedOp
  calls : List CallRec
  notConnected : Bool
  ncError : Option String
deriving DecidableEq, Repr

/-- The empty initial state. -/
def emptyAccum : Accum := ⟨[], [], [], false, none⟩

/-- Python `s.startswith(pre)`: character-wise prefix test. -/
def pyStartswith (s pre : String) : Bool :=
  pre.data.isPrefixOf s.data

/-- `main.py` lines 140-141: prepend `oc-` to a non-empty company id that
does not already start with it. -/
def ocPrefix (cid : String) : String :=
  if cid ≠ "" ∧ ¬ pyStartswith cid "oc-" then "oc-" ++ cid else cid

/-- `error_msg and 'Not connected to GST System' in error_msg`. -/
def isNCError : Option String → Bool
  | some m => containsSub m "Not connected to GST System"
  | none => false

/-- Python truthiness used for the record fields:
`error_msg if error_msg else '-'`. -/
def errField : Option String → String
  | some m => if m = "" then "-" else m
  | none => "-"

/-- The inner `for report_type in report_types` body of
`run_pull_operation` (lines 193-250): one API call, the not-connected
check, the retry-queue append, and the result append.  Note the
`company_not_connected` guard sits on the *month* loop only, so this body
always issues a call. -/
def stepReport (api : PullApi) (skipNC : Bool) (cid name g month : String)
    (acc : Accum) (rt : String) : Accum :=
  let r := api rt cid g month
  let hit := !r.success && isNCError r.errorMsg
  let nc := acc.notConnected || (hit && skipNC)
  let ncErr := if hit && skipNC then r.errorMsg else acc.ncError
  let status := if r.success then "Success" else if nc then "Skipped" else "Failed"
  let failed :=
    if !r.success && !nc then acc.failedOps ++ [⟨rt, cid, name, g, month, r.errorMsg⟩]
    else acc.failedOps
  { results := acc.results ++ [⟨rt, cid, name, g, month, r.jobId.getD "", status, errField r.errorMsg⟩]
    failedOps := failed
    calls := acc.calls ++ [⟨rt, cid, g, month⟩]
    notConnected := nc
    ncError := ncErr }

/-- The skip record appended for every report type of a month once the
company is flagged not connected (lines 172-190). -/
def ncSkipRec (cid name g month : String) (ncError : Option String) (rt : String) : ResultRec :=
  ⟨rt, cid, name, g, month, "", "Skipped", ncError.getD ""⟩

/-- The `for month_index, month in enumerate(months)` body (lines
169-250): if the company is already flagged not connected, append one
`Skipped` record per report type and make no call; otherwise run the
report-type loop. -/
def processMonth (api : PullApi) (skipNC : Bool) (cid name g : String)
    (reports : List String) (acc : Accum) (month : String) : Accum :=
  if acc.notConnected then
    { acc with results := acc.results ++ reports.map (ncSkipRec cid name g month acc.ncError) }
  else
    reports.foldl (stepReport api skipNC cid name g month) acc

/-- The skip record appended for a company missing its id or GSTIN
(lines 144-159). -/
def missingSkipRec (cid name g month rt : String) : ResultRec :=
  ⟨rt, (if cid = "" then "Missing" else cid), name,
   (if g = "" then "Missing" else g), month, "", "Skipped",
   "Missing Company ID or GSTIN"⟩

/-- The `for company in companies` body (lines 134-250): prefix the
company id, skip the whole company when id or GSTIN is missing, else
run the month loop from a clean not-connected state. -/
def processCompany (api : PullApi) (skipNC : Bool) (months reports : List String)
    (c : Company) : Accum :=
  let cid := ocPrefix c.companyId
  if cid = "" ∨ c.gstin = "" then
    { emptyAccum with
      results := months.foldl
        (fun rs month => rs ++ reports.map (missingSkipRec cid c.companyName c.gstin month)) [] }
  else
    months.foldl (processMonth api skipNC cid c.companyName c.gstin reports) emptyAccum

/-- Concatenation of per-company loop effects: the three lists grow, the
per-company flags are simply the last company's (they are re-initialized
for each company by `processCompany`). -/
def Accum.merge (acc a : Accum) : Accum :=
  { results := acc.results ++ a.results
    failedOps := acc.failedOps ++ a.failedOps
    calls := acc.calls ++ a.calls
    notConnected := a.notConnected
    ncError := a.ncError }

/-- The whole batch loop of `run_pull_operation`: each company is
processed independently (the not-connected flag is reset per company) and
the per-company lists are concatenated in input order. -/
def run_pull (api : PullApi) (skipNC : Bool) (companies : List Company)
    (months reports : List String) : Accum :=
  companies.foldl
    (fun acc c => acc.merge (processCompany api skipNC months reports c)) emptyAccum

/-! ## Retry-result merge (`main.run_pull_operation`, lines 252-266) -/

/-- The fields of a `smart_retry_with_backoff` entry the merge loop
reads. -/
structure RetryEntry where
  reportType : String
  companyName : String
  returnPeriod : String
  retryStatus : String
  jobId : String
deriving DecidableEq, Repr

/-- The match condition of the inner `for r in results` loop (lines
260-263). -/
def retryMatches (e : RetryEntry) (r : ResultRec) : Bool :=
  r.reportType == e.reportType && r.companyName == e.companyName &&
  r.returnPeriod == e.returnPeriod && r.status == "Failed"

/-- The in-place upgrade (lines 264-265). -/
def upgradeRec (e : RetryEntry) (r : ResultRec) : ResultRec :=
  { r with status := "Success (After Retry)", jobId := e.jobId }

/-- The inner loop with its `break`: upgrade the first matching record,
leave everything else untouched. -/
def updateFirst (e : RetryEntry) : List ResultRec → List ResultRec
  | [] => []
  | r :: rs => if retryMatches e r then upgradeRec e r :: rs else r :: updateFirst e rs

/-- One iteration of the outer `for retry in retry_results` loop: only
entries whose `retry_status` is `Success` touch the result list. -/
def applyRetry (rs : List ResultRec) (e : RetryEntry) : List ResultRec :=
  if e.retryStatus = "Success" then updateFirst e rs else rs

/-! ## Input normalization (`excel_handler.read_companies`, `main.py`) -/

/-- `read_companies` lines 68-71: `Company ID` is stripped and `.0`
occurrences removed. -/
def excelCompanyId (raw : String) : String := (pyStrip raw).replace ".0" ""

/-- `read_companies` line 75: `GSTIN` is stripped and upper-cased. -/
def excelGSTIN (raw : String) : String := pyUpper (pyStrip raw)

/-- The GSTIN as captured on the direct-export manual-entry paths
(`main.py` lines 544, 615): `input(...).strip()` only. -/
def directManualGSTIN (raw : String) : String := pyStrip raw

/-- The company id as built on the direct-export paths (`main.py` lines
551-553, 583-584, 617-618): the same `oc-` prefixing as the pull path. -/
def directCompanyId (raw : String) : String := ocPrefix raw

instance (p : Month) : Decidable p.valid := by
  unfold Month.valid; exact inferInstance

/-! ## Helper lemmas -/

theorem canonicalStatus_eq_unknown {c : Int} (h1 : c ≠ 100) (h2 : c ≠ 0)
    (h3 : c ≠ 1) (h4 : c ≠ 2) (h5 : c ≠ -1) (h6 : c ≠ -2) (h7 : c ≠ 99) :
    canonicalStatus c = "unknown" := by
  simp [canonicalStatus, status_mapping, h1, h2, h3, h4, h5, h6, h7]

theorem Month.valid_ofIdx (n : Nat) : (Month.ofIdx n).valid := by
  simp only [Month.ofIdx, Month.valid]
  omega

theorem Month.idx_ofIdx (n : Nat) : (Month.ofIdx n).idx = n := by
  simp only [Month.ofIdx, Month.idx]
  omega

theorem Month.ofIdx_idx {p : Month} (hp : p.valid) : Month.ofIdx p.idx = p := by
  obtain ⟨y, m⟩ := p
  simp only [Month.ofIdx, Month.idx, Month.valid, Month.mk.injEq] at *
  omega

theorem monthLE_iff_idx {a b : Month} (ha : a.valid) (hb : b.valid) :
    monthLE a b ↔ a.idx ≤ b.idx := by
  obtain ⟨y1, m1⟩ := a
  obtain ⟨y2, m2⟩ := b
  simp only [monthLE, Month.idx, Month.valid] at *
  omega

theorem nextMonth_valid {p : Month} (hp : p.valid) : (nextMonth p).valid := by
  obtain ⟨y, m⟩ := p
  simp only [Month.valid] at hp
  by_cases h : m = 12 <;> simp only [nextMonth, h, if_true, if_false, Month.valid] <;> omega

theorem idx_nextMonth {p : Month} (hp : p.valid) : (nextMonth p).idx = p.idx + 1 := by
  obtain ⟨y, m⟩ := p
  simp only [Month.valid] at hp
  by_cases h : m = 12 <;>
    simp only [nextMonth, h, if_true, if_false, Month.idx] <;> omega

theorem nextMonth_ofIdx (n : Nat) : nextMonth (Month.ofIdx n) = Month.ofIdx (n + 1) := by
  simp only [nextMonth, Month.ofIdx]
  split <;> simp only [Month.mk.injEq] <;> constructor <;> omega

theorem monthsLoop_eq {e : Month} (he : e.valid) :
    ∀ fuel cur, cur.valid → cur.idx + fuel = e.idx + 1 →
      monthsLoop e fuel cur = (List.range fuel).map (fun k => Month.ofIdx (cur.idx + k)) := by
  intro fuel
  induction fuel with
  | zero => intro cur _ _; rfl
  | succ f ih =>
    intro cur hc hidx
    have hle : monthLE cur e := (monthLE_iff_idx hc he).mpr (by omega)
    have hnext : (nextMonth cur).idx = cur.idx + 1 := idx_nextMonth hc
    simp only [monthsLoop, if_pos hle]
    rw [ih (nextMonth cur) (nextMonth_valid hc) (by omega)]
    rw [List.range_succ_eq_map]
    simp only [List.map_cons, List.map_map, Nat.add_zero, Function.comp]
    rw [Month.ofIdx_idx hc]
    congr 1
    apply List.map_congr_left
    intro k _
    rw [hnext]
    exact congrArg Month.ofIdx (by omega)

theorem generate_month_range_eq {a b : Month} (ha : a.valid) (hb : b.valid)
    (hab : monthLE a b) :
    generate_month_range a b =
      (List.range (b.idx + 1 - a.idx)).map (fun k => Month.ofIdx (a.idx + k)) := by
  have hle : a.idx ≤ b.idx := (monthLE_iff_idx ha hb).mp hab
  simp only [generate_month_range, if_pos hab]
  exact monthsLoop_eq hb _ a ha (by omega)

theorem gen_symm (a b : Month) (ha : a.valid) (hb : b.valid) :
    generate_month_range a b = generate_month_range b a := by
  by_cases h1 : monthLE a b <;> by_cases h2 : monthLE b a
  · have heq : a = b := by
      have e1 := (monthLE_iff_idx ha hb).mp h1
      have e2 := (monthLE_iff_idx hb ha).mp h2
      calc a = Month.ofIdx a.idx := (Month.ofIdx_idx ha).symm
        _ = Month.ofIdx b.idx := by rw [Nat.le_antisymm e1 e2]
        _ = b := Month.ofIdx_idx hb
    rw [heq]
  · simp only [generate_month_range, if_pos h1, if_neg h2]
  · simp only [generate_month_range, if_neg h1, if_pos h2]
  · exfalso
    have t1 : ¬ a.idx ≤ b.idx := fun hh => h1 ((monthLE_iff_idx ha hb).mpr hh)
    have t2 : ¬ b.idx ≤ a.idx := fun hh => h2 ((monthLE_iff_idx hb ha).mpr hh)
    omega

theorem gen_norm_spec {a b : Month} (ha : a.valid) (hb : b.valid) (hab : monthLE a b) :
    generate_month_range a b ≠ [] ∧
    (generate_month_range a b).head? = some a ∧
    (generate_month_range a b).getLast? = some b ∧
    (∀ i, (h : i + 1 < (generate_month_range a b).length) →
      (generate_month_range a b).get ⟨i + 1, h⟩ =
        nextMonth ((generate_month_range a b).get ⟨i, Nat.lt_of_succ_lt h⟩)) := by
  have hle : a.idx ≤ b.idx := (monthLE_iff_idx ha hb).mp hab
  have heq := generate_month_range_eq ha hb hab
  obtain ⟨m, hm⟩ : ∃ m, b.idx + 1 - a.idx = m + 1 := ⟨b.idx - a.idx, by omega⟩
  have hmv : m = b.idx - a.idx := by omega
  refine ⟨?_, ?_, ?_, ?_⟩
  · rw [heq, hm, List.range_succ_eq_map]
    simp
  · rw [heq, hm, List.range_succ_eq_map]
    simp [Month.ofIdx_idx ha]
  · rw [heq, hm, List.range_succ, List.map_append]
    simp only [List.map_cons, List.map_nil, List.getLast?_concat]
    have : a.idx + m = b.idx := by omega
    rw [this, Month.ofIdx_idx hb]
  · intro i h
    have hlen : (generate_month_range a b).length = m + 1 := by
      rw [heq, hm]; simp
    simp only [heq, List.get_eq_getElem, List.getElem_map, List.getElem_range]
    rw [nextMonth_ofIdx]
    exact congrArg Month.ofIdx (by omega)

theorem pullIter_all_transient (events : Nat → HttpEvent) (g p : String)
    (h : ∀ i, (events i).isTransient = true) :
    ∀ fuel attempt, pullIter events g p attempt (fuel + 1) =
      (⟨false, none, transientFailMsg (events (attempt + fuel))⟩, attempt + fuel + 1) := by
  intro fuel
  induction fuel with
  | zero =>
    intro attempt
    have ht := h attempt
    cases hev : events attempt with
    | resp status ec em body text =>
      rw [hev] at ht
      simp only [HttpEvent.isTransient, Bool.or_eq_true, beq_iff_eq] at ht
      rcases ht with rfl | rfl <;> simp [pullIter, hev, transientFailMsg]
    | timeout => simp [pullIter, hev, transientFailMsg]
    | connError => simp [pullIter, hev, transientFailMsg]
    | exn m => rw [hev] at ht; simp [HttpEvent.isTransient] at ht
  | succ f ih =>
    intro attempt
    have ht := h attempt
    have hrec := ih (attempt + 1)
    have harith : attempt + 1 + f = attempt + (f + 1) := by omega
    rw [harith] at hrec
    cases hev : events attempt with
    | resp status ec em body text =>
      rw [hev] at ht
      simp only [HttpEvent.isTransient, Bool.or_eq_true, beq_iff_eq] at ht
      rcases ht with rfl | rfl <;>
        · conv_lhs => rw [pullIter]
          rw [hev]
          norm_num
          exact hrec
    | timeout =>
      conv_lhs => rw [pullIter]
      rw [hev]
      norm_num
      exact hrec
    | connError =>
      conv_lhs => rw [pullIter]
      rw [hev]
      norm_num
      exact hrec
    | exn m => rw [hev] at ht; simp [HttpEvent.isTransient] at ht

theorem exportWaitGo_nonterminal (poll : Nat → String)
    (hNT : ∀ i, ¬ isExportTerminal (poll i)) :
    ∀ fuel waited iter, 180 ≤ waited + fuel * 3 →
      exportWaitGo poll 3 180 waited iter fuel = .timedOut (iter + (180 - waited + 2) / 3) := by
  intro fuel
  induction fuel with
  | zero =>
    intro waited iter hb
    simp only [exportWaitGo]
    congr 1
    omega
  | succ f ih =>
    intro waited iter hb
    by_cases hw : waited < 180
    · have hnt := hNT (iter + 1)
      simp only [isExportTerminal] at hnt
      have hA : ¬(pyLower (poll (iter + 1)) = "completed" ∨
          pyLower (poll (iter + 1)) = "complete" ∨
          pyLower (poll (iter + 1)) = "success" ∨
          pyLower (poll (iter + 1)) = "successful") := fun hh => hnt (by tauto)
      have hB : ¬(pyLower (poll (iter + 1)) = "failed" ∨
          pyLower (poll (iter + 1)) = "error" ∨
          pyLower (poll (iter + 1)) = "cancelled") := fun hh => hnt (by tauto)
      simp only [exportWaitGo, if_pos hw, if_neg hA, if_neg hB]
      rw [ih (waited + 3) (iter + 1) (by omega)]
      congr 1
      omega
    · simp only [exportWaitGo, if_neg hw]
      congr 1
      omega

theorem stepReport_results_len (api : PullApi) (skip : Bool) (cid n g m rt : String)
    (acc : Accum) :
    (stepReport api skip cid n g m acc rt).results.length = acc.results.length + 1 := by
  simp [stepReport]

theorem foldReports_results_len (api : PullApi) (skip : Bool) (cid n g m : String) :
    ∀ (reports : List String) (acc : Accum),
      (reports.foldl (stepReport api skip cid n g m) acc).results.length =
        acc.results.length + reports.length := by
  intro reports
  induction reports with
  | nil => intro acc; simp
  | cons rt rest ih =>
    intro acc
    simp only [List.foldl_cons]
    rw [ih, stepReport_results_len]
    simp only [List.length_cons]
    omega

theorem processMonth_results_len (api : PullApi) (skip : Bool) (cid n g : String)
    (reports : List String) (acc : Accum) (month : String) :
    (processMonth api skip cid n g reports acc month).results.length =
      acc.results.length + reports.length := by
  unfold processMonth
  split
  · simp
  · exact foldReports_results_len api skip cid n g month reports acc

theorem foldMonths_results_len (api : PullApi) (skip : Bool) (cid n g : String)
    (reports : List String) :
    ∀ (months : List String) (acc : Accum),
      ((months.foldl (processMonth api skip cid n g reports) acc).results.length =
        acc.results.length + months.length * reports.length) := by
  intro months
  induction months with
  | nil => intro acc; simp
  | cons m rest ih =>
    intro acc
    simp only [List.foldl_cons]
    rw [ih, processMonth_results_len]
    simp only [List.length_cons]
    ring

theorem foldMissing_results_len (cid n g : String) (reports : List String) :
    ∀ (months : List String) (rs : List ResultRec),
      (months.foldl
        (fun rs month => rs ++ reports.map (missingSkipRec cid n g month)) rs).length =
        rs.length + months.length * reports.length := by
  intro months
  induction months with
  | nil => intro rs; simp
  | cons m rest ih =>
    intro rs
    simp only [List.foldl_cons]
    rw [ih]
    simp
    ring

theorem processCompany_results_len (api : PullApi) (skip : Bool)
    (months reports : List String) (c : Company) :
    (processCompany api skip months reports c).results.length =
      months.length * reports.length := by
  by_cases h : ocPrefix c.companyId = "" ∨ c.gstin = ""
  · have hm := foldMissing_results_len (ocPrefix c.companyId) c.companyName c.gstin
      reports months []
    simp only [processCompany, if_pos h]
    simpa using hm
  · have hm := foldMonths_results_len api skip (ocPrefix c.companyId) c.companyName
      c.gstin reports months emptyAccum
    simp only [processCompany, if_neg h]
    simpa [emptyAccum] using hm

theorem run_pull_foldl_results_len (api : PullApi) (skipNC : Bool)
    (months reports : List String) :
    ∀ (cs : List Company) (acc : Accum),
      ((cs.foldl (fun acc c =>
          acc.merge (processCompany api skipNC months reports c)) acc).results.length) =
        acc.results.length + cs.length * (months.length * reports.length) := by
  intro cs
  induction cs with
  | nil => intro acc; simp
  | cons c rest ih =>
    intro acc
    simp only [List.foldl_cons]
    rw [ih]
    simp [Accum.merge, processCompany_results_len]
    ring

theorem months_after_nc (api : PullApi) (cid n g : String) (reports : List String)
    (e : String) :
    ∀ (months : List String) (acc : Accum),
      acc.notConnected = true → acc.ncError = some e →
      ((months.foldl (processMonth api true cid n g reports) acc).calls = acc.calls ∧
       (months.foldl (processMonth api true cid n g reports) acc).failedOps = acc.failedOps ∧
       (months.foldl (processMonth api true cid n g reports) acc).notConnected = true ∧
       (months.foldl (processMonth api true cid n g reports) acc).ncError = some e ∧
       ∀ r ∈ (months.foldl (processMonth api true cid n g reports) acc).results,
         r ∈ acc.results ∨ (r.status = "Skipped" ∧ r.errorMessage = e)) := by
  intro months
  induction months with
  | nil => intro acc h1 h2; exact ⟨rfl, rfl, h1, h2, fun r hr => Or.inl hr⟩
  | cons m rest ih =>
    intro acc h1 h2
    simp only [List.foldl_cons]
    have hm : processMonth api true cid n g reports acc m =
        { acc with results := acc.results ++ reports.map (ncSkipRec cid n g m acc.ncError) } := by
      simp [processMonth, h1]
    rw [hm]
    obtain ⟨c1, c2, c3, c4, c5⟩ :=
      ih { acc with results := acc.results ++ reports.map (ncSkipRec cid n g m acc.ncError) }
        (by exact h1) (by exact h2)
    refine ⟨by exact c1, by exact c2, c3, c4, ?_⟩
    intro r hr
    rcases c5 r hr with hmem | hskip
    · rcases List.mem_append.mp (by exact hmem) with hacc | hnew
      · exact Or.inl hacc
      · obtain ⟨rt, _, rfl⟩ := List.mem_map.mp hnew
        refine Or.inr ⟨rfl, ?_⟩
        simp [ncSkipRec, h2]
    · exact Or.inr hskip

theorem stepReport_nc_trigger (api : PullApi) (cid n g month rt : String) (acc : Accum)
    (hs : (api rt cid g month).success = false)
    (hnc : isNCError (api rt cid g month).errorMsg = true) :
    (stepReport api true cid n g month acc rt).notConnected = true ∧
    (stepReport api true cid n g month acc rt).ncError = (api rt cid g month).errorMsg := by
  simp [stepReport, hs, hnc]

theorem run_pull_calls_split (api : PullApi) (skipNC : Bool)
    (months reports : List String) :
    ∀ (cs : List Company) (acc : Accum),
      ((cs.foldl (fun acc c =>
          acc.merge (processCompany api skipNC months reports c)) acc).calls) =
        acc.calls ++ (run_pull api skipNC cs months reports).calls := by
  intro cs
  induction cs with
  | nil => intro acc; simp [run_pull, emptyAccum]
  | cons c rest ih =>
    intro acc
    simp only [List.foldl_cons]
    rw [ih]
    conv_rhs => rw [run_pull]
    simp only [List.foldl_cons]
    rw [ih (emptyAccum.merge (processCompany api skipNC months reports c))]
    simp [Accum.merge, emptyAccum, List.append_assoc]

theorem updateFirst_length (e : RetryEntry) :
    ∀ rs : List ResultRec, (updateFirst e rs).length = rs.length := by
  intro rs
  induction rs with
  | nil => rfl
  | cons r rest ih =>
    unfold updateFirst
    split <;> simp [ih]

theorem updateFirst_no_match (e : RetryEntry) :
    ∀ rs : List ResultRec, (∀ r ∈ rs, retryMatches e r = false) →
      updateFirst e rs = rs := by
  intro rs
  induction rs with
  | nil => intro _; rfl
  | cons r rest ih =>
    intro h
    unfold updateFirst
    rw [if_neg (by simp [h r (by simp)])]
    rw [ih (fun x hx => h x (by simp [hx]))]

theorem updateFirst_first_match (e : RetryEntry) :
    ∀ (rs : List ResultRec) (i : Nat) (h : i < rs.length),
      (∀ j (hj : j < i), retryMatches e (rs.get ⟨j, Nat.lt_trans hj h⟩) = false) →
      retryMatches e (rs.get ⟨i, h⟩) = true →
      updateFirst e rs = rs.take i ++ upgradeRec e (rs.get ⟨i, h⟩) :: rs.drop (i + 1) := by
  intro rs
  induction rs with
  | nil => intro i h; exact absurd h (by simp)
  | cons r rest ih =>
    intro i h hpre hmatch
    cases i with
    | zero =>
      simp only [List.get] at hmatch
      unfold updateFirst
      rw [if_pos hmatch]
      simp
    | succ i =>
      have h0 : retryMatches e r = false := by
        have := hpre 0 (Nat.succ_pos i)
        simpa using this
      unfold updateFirst
      rw [if_neg (by simp [h0])]
      have hrest : i < rest.length := by simpa using h
      rw [ih i hrest
        (fun j hj => by
          have := hpre (j + 1) (Nat.succ_lt_succ hj)
          simpa using this)
        (by simpa using hmatch)]
      simp

theorem toNat_ofNat_of_lt {n : Nat} (h : n < 55296) : (Char.ofNat n).toNat = n := by
  have hv : n.isValidChar := Or.inl h
  unfold Char.ofNat
  rw [dif_pos hv]
  simp [Char.ofNatAux, Char.toNat, UInt32.toNat]

theorem pyUpperChar_idem (c : Char) : pyUpperChar (pyUpperChar c) = pyUpperChar c := by
  unfold pyUpperChar
  by_cases h : 97 ≤ c.toNat ∧ c.toNat ≤ 122
  · rw [if_pos h]
    have ht : (Char.ofNat (c.toNat - 32)).toNat = c.toNat - 32 :=
      toNat_ofNat_of_lt (by omega)
    rw [if_neg (by omega)]
  · simp only [if_neg h]

theorem pyUpper_idem (s : String) : pyUpper (pyUpper s) = pyUpper s := by
  unfold pyUpper
  refine congrArg String.mk ?_
  show (s.data.map pyUpperChar).map pyUpperChar = s.data.map pyUpperChar
  rw [List.map_map]
  apply List.map_congr_left
  intro c _
  exact pyUpperChar_idem c

theorem ocPrefix_startsWith {s : String} (hs : s ≠ "") :
    pyStartswith (ocPrefix s) "oc-" = true := by
  unfold ocPrefix
  by_cases h : pyStartswith s "oc-" = true
  · rw [if_neg (by simp [h])]
    exact h
  · rw [if_pos ⟨hs, by simp [h]⟩]
    unfold pyStartswith
    obtain ⟨l⟩ := s
    rw [show (("oc-" : String) ++ ⟨l⟩).data = "oc-".data ++ l from rfl]
    simp only [List.isPrefixOf_iff_prefix]
    exact List.prefix_append _ _

set_option maxHeartbeats 2000000 in
theorem pullIter_domain_independent (events : Nat → HttpEvent) :
    ∀ fuel (g p g2 p2 : String) (attempt : Nat),
      pullObs (pullIter events g p attempt fuel) =
        pullObs (pullIter events g2 p2 attempt fuel) := by
  intro fuel
  induction fuel with
  | zero => intro g p g2 p2 attempt; rfl
  | succ f ih =>
    intro g p g2 p2 attempt
    cases hev : events attempt with
    | resp status ec em body text =>
      rcases body with e | (_ | j) <;>
        · simp only [pullIter, hev]
          split_ifs <;> first
            | rfl
            | exact ih g p g2 p2 (attempt + 1)
    | timeout =>
      simp only [pullIter, hev]
      split_ifs <;> first
        | rfl
        | exact ih g p g2 p2 (attempt + 1)
    | connError =>
      simp only [pullIter, hev]
      split_ifs <;> first
        | rfl
        | exact ih g p g2 p2 (attempt + 1)
    | exn m => simp [pullIter, hev, pullObs]

theorem foldReports_calls_spec (api : PullApi) (skip : Bool) (cid n g m : String) :
    ∀ (reports : List String) (acc : Accum),
      ∀ call ∈ (reports.foldl (stepReport api skip cid n g m) acc).calls,
        call ∈ acc.calls ∨ (call.companyId = cid ∧ call.gstin = g) := by
  intro reports
  induction reports with
  | nil => intro acc call hc; exact Or.inl hc
  | cons rt rest ih =>
    intro acc call hc
    simp only [List.foldl_cons] at hc
    rcases ih (stepReport api skip cid n g m acc rt) call hc with hmem | hfix
    · have : (stepReport api skip cid n g m acc rt).calls =
          acc.calls ++ [⟨rt, cid, g, m⟩] := by simp [stepReport]
      rw [this] at hmem
      rcases List.mem_append.mp hmem with h1 | h1
      · exact Or.inl h1
      · simp only [List.mem_singleton] at h1
        subst h1
        exact Or.inr ⟨rfl, rfl⟩
    · exact Or.inr hfix

theorem foldMonths_calls_spec (api : PullApi) (skip : Bool) (cid n g : String)
    (reports : List String) :
    ∀ (months : List String) (acc : Accum),
      ∀ call ∈ (months.foldl (processMonth api skip cid n g reports) acc).calls,
        call ∈ acc.calls ∨ (call.companyId = cid ∧ call.gstin = g) := by
  intro months
  induction months with
  | nil => intro acc call hc; exact Or.inl hc
  | cons m rest ih =>
    intro acc call hc
    simp only [List.foldl_cons] at hc
    rcases ih (processMonth api skip cid n g reports acc m) call hc with hmem | hfix
    · unfold processMonth at hmem
      split at hmem
      · exact Or.inl hmem
      · exact foldReports_calls_spec api skip cid n g m reports acc call hmem
    · exact Or.inr hfix

theorem processCompany_calls_spec (api : PullApi) (skip : Bool)
    (months reports : List String) (c : Company) :
    ∀ call ∈ (processCompany api skip months reports c).calls,
      call.companyId = ocPrefix c.companyId ∧ call.gstin = c.gstin ∧
      pyStartswith call.companyId "oc-" = true := by
  intro call hc
  by_cases h : ocPrefix c.companyId = "" ∨ c.gstin = ""
  · simp only [processCompany, if_pos h] at hc
    simp [emptyAccum] at hc
  · simp only [processCompany, if_neg h] at hc
    rcases foldMonths_calls_spec api skip (ocPrefix c.companyId) c.companyName c.gstin
      reports months emptyAccum call hc with hmem | hfix
    · simp [emptyAccum] at hmem
    · have hne : ocPrefix c.companyId ≠ "" := fun hh => h (Or.inl hh)
      have hsne : c.companyId ≠ "" := by
        intro hh
        apply hne
        rw [hh]
        rfl
      exact ⟨hfix.1, hfix.2, by rw [hfix.1]; exact ocPrefix_startsWith hsne⟩

/-! ## Claim theorems -/

/-- C1: a pull batch appends exactly one result record per
(company, month, report type) unit - including missing-id skips,
not-connected skips and failures - so the final count is
`companies * months * report-types` for every API behaviour, in
particular when every unit fails. -/
theorem run_pull_result_count (api : PullApi) (skipNC : Bool)
    (companies : List Company) (months reports : List String) :
    (run_pull api skipNC companies months reports).results.length =
      companies.length * (months.length * reports.length) := by
  have h := run_pull_foldl_results_len api skipNC months reports companies emptyAccum
  simpa [run_pull, emptyAccum] using h

set_option maxRecDepth 8192 in
/-- C2 counterexample: with two report types in the batch, the unit right
after the one that reported not-connected (same company, same month,
second report type) still triggers a `pull_gst_report` invocation - two
calls are recorded, not one - and its `Skipped` record carries its own
error message (`GSTR-2B is not yet enabled...`), not the not-connected
message. -/
theorem not_connected_short_circuit_counterexample :
    ((run_pull
        (fun rt _ _ _ =>
          if rt = "GSTR-2A" then
            ⟨false, none, some "Not connected to GST System - Please complete OTP verification for 27X"⟩
          else ⟨false, none, some "GSTR-2B is not yet enabled. Waiting for API documentation."⟩)
        true [⟨"1", "Acme", "27X"⟩] ["2024-04"] ["GSTR-2A", "GSTR-2B"]).calls.length = 2) ∧
    isNCError (some "Not connected to GST System - Please complete OTP verification for 27X") = true ∧
    ((run_pull
        (fun rt _ _ _ =>
          if rt = "GSTR-2A" then
            ⟨false, none, some "Not connected to GST System - Please complete OTP verification for 27X"⟩
          else ⟨false, none, some "GSTR-2B is not yet enabled. Waiting for API documentation."⟩)
        true [⟨"1", "Acme", "27X"⟩] ["2024-04"] ["GSTR-2A", "GSTR-2B"]).results.map
          (fun r => r.errorMessage)) =
      ["Not connected to GST System - Please complete OTP verification for 27X",
       "GSTR-2B is not yet enabled. Waiting for API documentation."] ∧
    "GSTR-2B is not yet enabled. Waiting for API documentation." ≠
      "Not connected to GST System - Please complete OTP verification for 27X" ∧
    (2 : Nat) ≠ 1 :=
  ⟨rfl, rfl, rfl, by decide, by decide⟩

/-- C2 amended: once the not-connected flag is set for a company (with
skipping enabled), every unit of every *subsequent month* is recorded as
`Skipped` carrying the captured not-connected error message and no
further `pull_gst_report` invocation is made for that company; the flag
and message are captured by the unit whose call fails with the
distinguished message; other companies are unaffected (per-company
processing is independent).  However the remaining report types of the
month in which the error occurred still invoke `pull_gst_report` (see the
counterexample), each recording its own outcome. -/
theorem not_connected_short_circuit_amended :
    (∀ (api : PullApi) (cid n g : String) (reports : List String) (e : String)
       (months : List String) (acc : Accum),
      acc.notConnected = true → acc.ncError = some e →
        ((months.foldl (processMonth api true cid n g reports) acc).calls = acc.calls ∧
         ∀ r ∈ (months.foldl (processMonth api true cid n g reports) acc).results,
           r ∈ acc.results ∨ (r.status = "Skipped" ∧ r.errorMessage = e))) ∧
    (∀ (api : PullApi) (cid n g month rt : String) (acc : Accum),
      (api rt cid g month).success = false →
      isNCError (api rt cid g month).errorMsg = true →
        (stepReport api true cid n g month acc rt).notConnected = true ∧
        (stepReport api true cid n g month acc rt).ncError = (api rt cid g month).errorMsg) ∧
    (∀ (api : PullApi) (skipNC : Bool) (c : Company) (cs : List Company)
       (months reports : List String),
      (run_pull api skipNC (c :: cs) months reports).calls =
        (processCompany api skipNC months reports c).calls ++
          (run_pull api skipNC cs months reports).calls) := by
  refine ⟨?_, ?_, ?_⟩
  · intro api cid n g reports e months acc h1 h2
    obtain ⟨c1, _, _, _, c5⟩ := months_after_nc api cid n g reports e months acc h1 h2
    exact ⟨c1, c5⟩
  · intro api cid n g month rt acc hs hnc
    exact stepReport_nc_trigger api cid n g month rt acc hs hnc
  · intro api skipNC c cs months reports
    rw [run_pull]
    simp only [List.foldl_cons]
    rw [run_pull_calls_split api skipNC months reports cs
      (Accum.merge emptyAccum (processCompany api skipNC months reports c))]
    simp [Accum.merge, emptyAccum]

/-- Witness for C2 amended: a company already flagged not connected makes
no calls in a later month and records only `Skipped` with the captured
message; a not-connected reply flips the flag. -/
theorem not_connected_short_circuit_amended_witness :
    ((⟨[], [], [], true, some "E"⟩ : Accum).notConnected = true ∧
     (["2024-05"].foldl
        (processMonth (fun _ _ _ _ => ⟨false, none, some "x"⟩) true "oc-1" "A" "G"
          ["GSTR-2A"])
        ⟨[], [], [], true, some "E"⟩).calls = []) ∧
    (((fun _ _ _ _ => (⟨false, none,
          some "Not connected to GST System - Please complete OTP verification for G"⟩ : TriResult)) :
        PullApi) "GSTR-2A" "oc-1" "G" "2024-04").success = false ∧
    (stepReport
      ((fun _ _ _ _ => (⟨false, none,
          some "Not connected to GST System - Please complete OTP verification for G"⟩ : TriResult)) :
        PullApi) true "oc-1" "A" "G" "2024-04" emptyAccum "GSTR-2A").notConnected = true := by
  have h1 := not_connected_short_circuit_amended.1
    (fun _ _ _ _ => ⟨false, none, some "x"⟩) "oc-1" "A" "G" ["GSTR-2A"] "E"
    ["2024-05"] ⟨[], [], [], true, some "E"⟩ rfl rfl
  have h2 := not_connected_short_circuit_amended.2.1
    (fun _ _ _ _ => ⟨false, none,
      some "Not connected to GST System - Please complete OTP verification for G"⟩)
    "oc-1" "A" "G" "2024-04" "GSTR-2A" emptyAccum rfl (by decide)
  exact ⟨⟨rfl, h1.1⟩, rfl, h2.1⟩

/-- C3: `check_job_status` maps vendor job-status codes per the fixed
table `100→completed, 0→pending, 1→processing, 2→processing, -1→failed,
-2→cancelled, 99→expired`; every code outside that set derives `unknown`
(which is neither `completed` nor `failed`), and only code `100` derives
`completed`. -/
theorem check_job_status_canonical_mapping :
    (canonicalStatus 100 = "completed" ∧ canonicalStatus 0 = "pending" ∧
     canonicalStatus 1 = "processing" ∧ canonicalStatus 2 = "processing" ∧
     canonicalStatus (-1) = "failed" ∧ canonicalStatus (-2) = "cancelled" ∧
     canonicalStatus 99 = "expired") ∧
    (∀ c : Int, c ∉ ([100, 0, 1, 2, -1, -2, 99] : List Int) →
      canonicalStatus c = "unknown") ∧
    (∀ c : Int, canonicalStatus c = "completed" → c = 100) ∧
    "unknown" ≠ "completed" ∧ "unknown" ≠ "failed" := by
  refine ⟨by decide, ?_, ?_, by decide, by decide⟩
  · intro c hc
    simp only [List.mem_cons, List.not_mem_nil, or_false, not_or] at hc
    obtain ⟨h1, h2, h3, h4, h5, h6, h7⟩ := hc
    exact canonicalStatus_eq_unknown h1 h2 h3 h4 h5 h6 h7
  · intro c h
    by_contra h1
    by_cases h2 : c = 0
    · subst h2; revert h; decide
    by_cases h3 : c = 1
    · subst h3; revert h; decide
    by_cases h4 : c = 2
    · subst h4; revert h; decide
    by_cases h5 : c = -1
    · subst h5; revert h; decide
    by_cases h6 : c = -2
    · subst h6; revert h; decide
    by_cases h7 : c = 99
    · subst h7; revert h; decide
    rw [canonicalStatus_eq_unknown h1 h2 h3 h4 h5 h6 h7] at h
    exact absurd h (by decide)

/-- Witness for C3 at concrete codes. -/
theorem check_job_status_canonical_mapping_witness :
    ((7 : Int) ∉ ([100, 0, 1, 2, -1, -2, 99] : List Int) ∧ canonicalStatus 7 = "unknown") ∧
    ((-5 : Int) ∉ ([100, 0, 1, 2, -1, -2, 99] : List Int) ∧ canonicalStatus (-5) = "unknown") :=
  ⟨⟨by decide, check_job_status_canonical_mapping.2.1 7 (by decide)⟩,
   ⟨by decide, check_job_status_canonical_mapping.2.1 (-5) (by decide)⟩⟩

/-- C4 counterexample: on a unit whose every retry attempt fails, the
driver sleeps `2` then `4` seconds - only two inter-attempt delays occur
across the 3 attempts, never a third `8`-second delay, so the claimed
delay sequence `2, 4, 8` is wrong. -/
theorem smart_retry_delays_counterexample :
    (smart_retry_one (fun n => ⟨false, none, some ("boom " ++ toString n)⟩)).delays = [2, 4] ∧
    ([2, 4] : List Nat) ≠ [2, 4, 8] := by
  exact ⟨by decide, by decide⟩

/-- C4 amended: for a unit whose every attempt fails, the driver makes
exactly 3 attempts with inter-attempt delays `2, 4` seconds (each
computed as `min(base^attempt, cap)` with base 2 and cap 30; there are
only two delays because no sleep follows the final attempt), then records
a `Failed` retry result preserving the error message of the last (3rd)
attempt, and performs no 4th attempt. -/
theorem smart_retry_backoff_amended (res : Nat → TriResult)
    (h : ∀ i, (res i).success = false) :
    smart_retry_one res =
      ⟨"Failed", 3, none, (res 3).errorMsg,
       [min (RETRY_EXPONENTIAL_BASE ^ 1) RETRY_MAX_WAIT,
        min (RETRY_EXPONENTIAL_BASE ^ 2) RETRY_MAX_WAIT]⟩ ∧
    [min (RETRY_EXPONENTIAL_BASE ^ 1) RETRY_MAX_WAIT,
     min (RETRY_EXPONENTIAL_BASE ^ 2) RETRY_MAX_WAIT] = [2, 4] := by
  constructor
  · show smartRetryGo res 1 3 [] = _
    rw [smartRetryGo, smartRetryGo, smartRetryGo]
    simp [h 1, h 2, h 3]
  · decide

/-- Witness for C4 amended with a concrete always-failing oracle. -/
theorem smart_retry_backoff_amended_witness :
    (∀ i, ((fun _ : Nat => (⟨false, none, some "err"⟩ : TriResult)) i).success = false) ∧
    smart_retry_one (fun _ : Nat => (⟨false, none, some "err"⟩ : TriResult)) =
      ⟨"Failed", 3, none, some "err", [2, 4]⟩ := by
  refine ⟨fun _ => rfl, ?_⟩
  have h := (smart_retry_backoff_amended (fun _ => ⟨false, none, some "err"⟩)
    (fun _ => rfl))
  rw [h.1, RetryOutcome.mk.injEq]
  exact ⟨rfl, rfl, rfl, rfl, h.2⟩

set_option maxRecDepth 8192 in
/-- C5 counterexample: a pull submission answered with HTTP 502 (a 5xx
server error) is *not* retried - `pull_gst_report` issues exactly one
POST and fails immediately with `HTTP 502: ...`; and `export_gst_report`
gives up after a single timeout even though the very next attempt would
have succeeded, so exports are never transport-retried at all. -/
theorem transport_retry_counterexample :
    (pull_gst_report "GSTR-2A" "oc-1" "G1" "2024-04"
      (fun _ => .resp 502 none none (.parsed none) "Bad Gateway")).2 = 1 ∧
    (pull_gst_report "GSTR-2A" "oc-1" "G1" "2024-04"
      (fun _ => .resp 502 none none (.parsed none) "Bad Gateway")).1.errorMsg =
        some "HTTP 502: Bad Gateway" ∧
    (1 : Nat) ≠ 3 ∧
    export_gst_report "GSTR-2A" "oc-1" "G1" "2024-04" "2024-06" 101
      (fun i => if i = 0 then .timeout else .resp 200 none none (.parsed (some "J1")) "") =
        ⟨false, none, some "Request timeout"⟩ ∧
    (pull_gst_report "GSTR-2A" "oc-1" "G1" "2024-04"
      (fun i => if i = 0 then .timeout else .resp 200 none none (.parsed (some "J1")) "")).1.success =
        true := by
  exact ⟨rfl, rfl, by decide, rfl, rfl⟩

/-- C5 amended: `pull_gst_report` retries transient transport outcomes -
HTTP 429, HTTP 500 exactly (not other 5xx codes), timeouts and connection
errors - up to 3 attempts, and when all 3 attempts are transient it fails
with the message determined by the last attempt's outcome; any
non-transient first outcome ends the pull after a single attempt; and
`export_gst_report` performs no transport-level retry at all: its outcome
depends only on the first attempt's transport event. -/
theorem transport_retry_amended :
    (∀ (events : Nat → HttpEvent) gstin period cid,
      (∀ i, (events i).isTransient = true) →
        pull_gst_report "GSTR-2A" cid gstin period events =
          (⟨false, none, transientFailMsg (events 2)⟩, 3)) ∧
    (∀ (events : Nat → HttpEvent) gstin period cid,
      (events 0).isTransient = false →
        (pull_gst_report "GSTR-2A" cid gstin period events).2 ≤ 1) ∧
    (∀ rt cid gstin sp ep fmt (events events2 : Nat → HttpEvent),
      events 0 = events2 0 →
        export_gst_report rt cid gstin sp ep fmt events =
          export_gst_report rt cid gstin sp ep fmt events2) := by
  refine ⟨?_, ?_, ?_⟩
  · intro events gstin period cid h
    show pullIter events gstin period 0 API_RETRY_COUNT = _
    have := pullIter_all_transient events gstin period h 2 0
    simpa using this
  · intro events gstin period cid h
    show (pullIter events gstin period 0 API_RETRY_COUNT).2 ≤ 1
    cases hev : events 0 with
    | resp status ec em body text =>
      rw [hev] at h
      simp only [HttpEvent.isTransient, Bool.or_eq_false_iff,
        beq_eq_false_iff_ne, ne_eq] at h
      obtain ⟨h429, h500⟩ := h
      conv_lhs => rw [API_RETRY_COUNT, pullIter]
      rw [hev]
      rcases body with e | (_ | j) <;> simp [h429, h500] <;> split_ifs <;> simp
    | timeout => rw [hev] at h; simp [HttpEvent.isTransient] at h
    | connError => rw [hev] at h; simp [HttpEvent.isTransient] at h
    | exn m =>
      conv_lhs => rw [API_RETRY_COUNT, pullIter]
      rw [hev]
  · intro rt cid gstin sp ep fmt events events2 h
    simp only [export_gst_report, h]

/-- Witness for C5 amended: an all-timeout stream exhausts the 3 pull
attempts; an HTTP 401 response ends the pull after one attempt; the
export outcome ignores every event after the first. -/
theorem transport_retry_amended_witness :
    ((∀ i, ((fun _ : Nat => HttpEvent.timeout) i).isTransient = true) ∧
      pull_gst_report "GSTR-2A" "oc-1" "G1" "2024-04" (fun _ : Nat => HttpEvent.timeout) =
        (⟨false, none, some "Request timeout"⟩, 3)) ∧
    (((fun _ : Nat => HttpEvent.resp 401 none none (.parsed none) "") 0).isTransient = false ∧
      (pull_gst_report "GSTR-2A" "oc-1" "G1" "2024-04"
        (fun _ : Nat => HttpEvent.resp 401 none none (.parsed none) "")).2 ≤ 1) := by
  constructor
  · refine ⟨fun _ => rfl, ?_⟩
    exact transport_retry_amended.1 (fun _ => HttpEvent.timeout) "G1" "2024-04" "oc-1"
      (fun _ => rfl)
  · refine ⟨rfl, ?_⟩
    exact transport_retry_amended.2.1 (fun _ => HttpEvent.resp 401 none none (.parsed none) "")
      "G1" "2024-04" "oc-1" rfl

/-- C6: if the polled status never takes a recognized terminal value, the
completion-wait loop of `process_export_batch` stops after exactly
`ceil(EXPORT_MAX_WAIT / EXPORT_CHECK_INTERVAL) = 60` status polls and the
unit is recorded with status `Timeout` (with the client-side timeout
message), a failure outcome distinct from `Job Failed`; the result is
never dropped. -/
theorem export_wait_times_out (submit : TriResult) (poll : Nat → String)
    (pm : Option String) (dl : DownloadResult)
    (hsub : submit.success = true)
    (hNT : ∀ i, ¬ isExportTerminal (poll i)) :
    exportWait poll EXPORT_CHECK_INTERVAL EXPORT_MAX_WAIT =
      .timedOut ((EXPORT_MAX_WAIT + EXPORT_CHECK_INTERVAL - 1) / EXPORT_CHECK_INTERVAL) ∧
    (EXPORT_MAX_WAIT + EXPORT_CHECK_INTERVAL - 1) / EXPORT_CHECK_INTERVAL = 60 ∧
    (process_export_batch submit poll pm dl).1.status = "Timeout" ∧
    (process_export_batch submit poll pm dl).1.error =
      some ("Job did not complete within " ++ toString EXPORT_MAX_WAIT ++ " seconds") ∧
    (process_export_batch submit poll pm dl).2 = false := by
  have hwait : exportWait poll 3 180 = .timedOut 60 := by
    have h := exportWaitGo_nonterminal poll hNT 181 0 0 (by omega)
    simpa [exportWait] using h
  have hconst : exportWait poll EXPORT_CHECK_INTERVAL EXPORT_MAX_WAIT = .timedOut 60 := by
    rw [EXPORT_CHECK_INTERVAL, EXPORT_MAX_WAIT]
    exact hwait
  refine ⟨by rw [hconst]; norm_num [EXPORT_MAX_WAIT, EXPORT_CHECK_INTERVAL],
    by norm_num [EXPORT_MAX_WAIT, EXPORT_CHECK_INTERVAL], ?_, ?_, ?_⟩ <;>
    simp [process_export_batch, hsub, hconst]

/-- Witness for C6: a poller that always reports `processing`. -/
theorem export_wait_times_out_witness :
    ((⟨true, some "J", none⟩ : TriResult).success = true) ∧
    (∀ i, ¬ isExportTerminal ((fun _ : Nat => "processing") i)) ∧
    (process_export_batch ⟨true, some "J", none⟩ (fun _ : Nat => "processing")
      none ⟨false, none, none⟩).1.status = "Timeout" :=
  ⟨rfl, fun _ => show ¬ isExportTerminal "processing" by decide,
    (export_wait_times_out ⟨true, some "J", none⟩ (fun _ : Nat => "processing")
      none ⟨false, none, none⟩ rfl
      (fun _ => show ¬ isExportTerminal "processing" by decide)).2.2.1⟩

/-- C7: `download_export` succeeds only when the written file exists with
size strictly greater than zero bytes (and the GET returned 200); in the
completed-job, URL-present, HTTP-200 path a missing or zero-byte file
yields `success = False` with the error message `File creation failed or
file is empty`. -/
theorem download_export_nonempty_file_check :
    (∀ snap hs cd tail jid ts written,
      (download_export snap hs cd tail jid ts written).success = true →
        hs = 200 ∧ ∃ n, written = some n ∧ 0 < n) ∧
    (∀ snap cd tail jid ts written,
      (snap.jobStatus = some 100 ∨ snap.status = "completed") →
      snap.url ≠ none →
      (written = none ∨ written = some 0) →
        (download_export snap 200 cd tail jid ts written).success = false ∧
        (download_export snap 200 cd tail jid ts written).info =
          some "File creation failed or file is empty") := by
  constructor
  · intro snap hs cd tail jid ts written h
    by_cases hdone : snap.jobStatus = some 100 ∨ snap.status = "completed"
    · cases hu : snap.url with
      | none => simp [download_export, hdone, hu] at h
      | some u =>
        by_cases hhs : hs ≠ 200
        · simp [download_export, hdone, hu, hhs] at h
        · cases written with
          | none => simp [download_export, hdone, hu, hhs] at h
          | some n =>
            by_cases hn : 0 < n
            · exact ⟨by omega, n, rfl, hn⟩
            · simp [download_export, hdone, hu, hhs, hn] at h
    · simp [download_export, hdone] at h
  · intro snap cd tail jid ts written hdone hurl hzero
    obtain ⟨u, hu⟩ := Option.ne_none_iff_exists'.mp hurl
    rcases hzero with rfl | rfl <;>
      simp [download_export, hdone, hu]

/-- C8: merging one retry outcome never changes the number of result
records (no duplication); an exhausted retry (status not `Success`)
leaves every original record unchanged; a successful retry with no
matching record changes nothing; and a successful retry upgrades exactly
the first record matching its report type, company name and period with
prior status `Failed` - in place, via `upgradeRec` (status
`Success (After Retry)`, new job id) - leaving every other record
untouched. -/
theorem retry_merge_updates_first_failed_match :
    (∀ (rs : List ResultRec) (e : RetryEntry), (applyRetry rs e).length = rs.length) ∧
    (∀ (rs : List ResultRec) (e : RetryEntry), e.retryStatus ≠ "Success" →
      applyRetry rs e = rs) ∧
    (∀ (rs : List ResultRec) (e : RetryEntry), e.retryStatus = "Success" →
      (∀ r ∈ rs, retryMatches e r = false) → applyRetry rs e = rs) ∧
    (∀ (rs : List ResultRec) (e : RetryEntry) (i : Nat) (h : i < rs.length),
      e.retryStatus = "Success" →
      (∀ j (hj : j < i), retryMatches e (rs.get ⟨j, Nat.lt_trans hj h⟩) = false) →
      retryMatches e (rs.get ⟨i, h⟩) = true →
        applyRetry rs e =
          rs.take i ++ upgradeRec e (rs.get ⟨i, h⟩) :: rs.drop (i + 1)) := by
  refine ⟨?_, ?_, ?_, ?_⟩
  · intro rs e
    unfold applyRetry
    split
    · exact updateFirst_length e rs
    · rfl
  · intro rs e he
    simp [applyRetry, he]
  · intro rs e he hnone
    simp only [applyRetry, if_pos he]
    exact updateFirst_no_match e rs hnone
  · intro rs e i h he hpre hmatch
    simp only [applyRetry, if_pos he]
    exact updateFirst_first_match e rs i h hpre hmatch

/-- Witness for C8: a successful retry entry against a two-record list
whose second record is the first `Failed` match. -/
theorem retry_merge_updates_first_failed_match_witness :
    ((⟨"GSTR-2A", "Acme", "2024-04", "Success", "J9"⟩ : RetryEntry).retryStatus = "Success") ∧
    applyRetry
      [⟨"GSTR-2A", "oc-1", "Acme", "G", "2024-04", "J1", "Success", "-"⟩,
       ⟨"GSTR-2A", "oc-1", "Acme", "G", "2024-04", "", "Failed", "boom"⟩]
      ⟨"GSTR-2A", "Acme", "2024-04", "Success", "J9"⟩ =
      [⟨"GSTR-2A", "oc-1", "Acme", "G", "2024-04", "J1", "Success", "-"⟩,
       ⟨"GSTR-2A", "oc-1", "Acme", "G", "2024-04", "J9", "Success (After Retry)", "boom"⟩] := by
  refine ⟨rfl, ?_⟩
  have h := retry_merge_updates_first_failed_match.2.2.2
    [⟨"GSTR-2A", "oc-1", "Acme", "G", "2024-04", "J1", "Success", "-"⟩,
     ⟨"GSTR-2A", "oc-1", "Acme", "G", "2024-04", "", "Failed", "boom"⟩]
    ⟨"GSTR-2A", "Acme", "2024-04", "Success", "J9"⟩ 1 (by decide) rfl
    (fun j hj => by
      have hj0 : j = 0 := by omega
      subst hj0
      show retryMatches ⟨"GSTR-2A", "Acme", "2024-04", "Success", "J9"⟩
        ⟨"GSTR-2A", "oc-1", "Acme", "G", "2024-04", "J1", "Success", "-"⟩ = false
      decide)
    (by decide)
  rw [h]
  decide

/-- C9 counterexample: on the direct-export manual-entry path the GSTIN
is only `strip()`-ped, never upper-cased - a lower-case GSTIN typed by
the user reaches the network as typed, differing from its upper-case
normalization. -/
theorem gstin_normalization_counterexample :
    directManualGSTIN "19aadcg0737g1zq" = "19aadcg0737g1zq" ∧
    pyUpper "19aadcg0737g1zq" = "19AADCG0737G1ZQ" ∧
    "19aadcg0737g1zq" ≠ "19AADCG0737G1ZQ" :=
  ⟨by decide, by decide, by decide⟩

/-- C9 amended: the GSTIN of a WorkUnit built by the Excel path
(`read_companies`) is upper-case normalized (a fixed point of
upper-casing); every non-empty company identifier is `oc-` prefixed by
`ocPrefix` on all entry paths; every `pull_gst_report` invocation issued
by the batch orchestrator carries exactly the company's (already
normalized) GSTIN and the `oc-` prefixed, non-empty company id; and the
transport layer performs no domain re-validation: its success flag, job
id and attempt count are independent of the GSTIN, the company id and
the period.  On the direct-export manual-entry paths, however, the GSTIN
is only whitespace-stripped, not upper-cased (see the counterexample). -/
theorem normalization_amended :
    (∀ raw : String, pyUpper (excelGSTIN raw) = excelGSTIN raw) ∧
    (∀ s : String, s ≠ "" → pyStartswith (ocPrefix s) "oc-" = true ∧
      pyStartswith (directCompanyId s) "oc-" = true) ∧
    (∀ (api : PullApi) (skip : Bool) (months reports : List String) (c : Company),
      ∀ call ∈ (processCompany api skip months reports c).calls,
        call.gstin = c.gstin ∧ call.companyId = ocPrefix c.companyId ∧
        pyStartswith call.companyId "oc-" = true) ∧
    (∀ (events : Nat → HttpEvent) (g p g2 p2 cid cid2 : String),
      pullObs (pull_gst_report "GSTR-2A" cid g p events) =
        pullObs (pull_gst_report "GSTR-2A" cid2 g2 p2 events)) := by
  refine ⟨?_, ?_, ?_, ?_⟩
  · intro raw
    exact pyUpper_idem (pyStrip raw)
  · intro s hs
    exact ⟨ocPrefix_startsWith hs, ocPrefix_startsWith hs⟩
  · intro api skip months reports c call hc
    obtain ⟨h1, h2, h3⟩ := processCompany_calls_spec api skip months reports c call hc
    exact ⟨h2, h1, h3⟩
  · intro events g p g2 p2 cid cid2
    show pullObs (pullIter events g p 0 API_RETRY_COUNT) =
      pullObs (pullIter events g2 p2 0 API_RETRY_COUNT)
    exact pullIter_domain_independent events API_RETRY_COUNT g p g2 p2 0

/-- Witness for C9 amended at concrete inputs: an Excel-read GSTIN is a
fixed point of upper-casing, and a plain numeric company id gets the
`oc-` prefix. -/
theorem normalization_amended_witness :
    pyUpper (excelGSTIN " 19aadcg0737g1zq ") = excelGSTIN " 19aadcg0737g1zq " ∧
    ("3372" : String) ≠ "" ∧
    pyStartswith (ocPrefix "3372") "oc-" = true :=
  ⟨normalization_amended.1 " 19aadcg0737g1zq ", by decide,
    (normalization_amended.2.1 "3372" (by decide)).1⟩

/-- C10: for valid parsed periods, `generate_month_range` is symmetric in
its arguments (they are swapped when start is after end), returns a
non-empty list whose first element is the earlier and last element the
later of the two, and consecutive elements differ by exactly one calendar
month. -/
theorem generate_month_range_spec (a b : Month) (ha : a.valid) (hb : b.valid) :
    generate_month_range a b = generate_month_range b a ∧
    generate_month_range a b ≠ [] ∧
    (generate_month_range a b).head? = some (if monthLE a b then a else b) ∧
    (generate_month_range a b).getLast? = some (if monthLE a b then b else a) ∧
    (∀ i, (h : i + 1 < (generate_month_range a b).length) →
      (generate_month_range a b).get ⟨i + 1, h⟩ =
        nextMonth ((generate_month_range a b).get ⟨i, Nat.lt_of_succ_lt h⟩)) := by
  have hsym := gen_symm a b ha hb
  by_cases hab : monthLE a b
  · obtain ⟨h1, h2, h3, h4⟩ := gen_norm_spec ha hb hab
    rw [if_pos hab, if_pos hab]
    exact ⟨hsym, h1, h2, h3, h4⟩
  · have hba : monthLE b a := by
      have t1 : ¬ a.idx ≤ b.idx := fun hh => hab ((monthLE_iff_idx ha hb).mpr hh)
      exact (monthLE_iff_idx hb ha).mpr (by omega)
    obtain ⟨h1, h2, h3, h4⟩ := gen_norm_spec hb ha hba
    rw [hsym, if_neg hab, if_neg hab]
    exact ⟨rfl, h1, h2, h3, h4⟩

/-- Witness for C10 at the concrete range 2024-11 .. 2025-02 (both
argument orders). -/
theorem generate_month_range_spec_witness :
    (⟨2024, 11⟩ : Month).valid ∧ (⟨2025, 2⟩ : Month).valid ∧
    generate_month_range ⟨2024, 11⟩ ⟨2025, 2⟩ = generate_month_range ⟨2025, 2⟩ ⟨2024, 11⟩ ∧
    (generate_month_range ⟨2024, 11⟩ ⟨2025, 2⟩).head? = some ⟨2024, 11⟩ ∧
    (generate_month_range ⟨2024, 11⟩ ⟨2025, 2⟩).getLast? = some ⟨2025, 2⟩ := by
  have h := generate_month_range_spec ⟨2024, 11⟩ ⟨2025, 2⟩ (by decide) (by decide)
  refine ⟨by decide, by decide, h.1, ?_, ?_⟩
  · rw [h.2.2.1]; decide
  · rw [h.2.2.2.1]; decide

/-- Witness for C7: a completed job with a URL, HTTP 200, but a zero-byte
file. -/
theorem download_export_nonempty_file_check_witness :
    (download_export ⟨some 100, "completed", some "u"⟩ 200 none "" "J" "t" (some 0)).success = false ∧
    (download_export ⟨some 100, "completed", some "u"⟩ 200 none "" "J" "t" (some 0)).info =
      some "File creation failed or file is empty" :=
  download_export_nonempty_file_check.2 ⟨some 100, "completed", some "u"⟩
    none "" "J" "t" (some 0) (Or.inl rfl) (by simp) (Or.inr rfl)

end OctaGST
